import Mathlib

/-!
Shallow embedding of the ADGM compliance checker and document-checklist
verifier (`src/adgm_checker.py`, `src/checklist_verifier.py`).

Strings are modelled as Lean `String`/`List Char`; Python `str.lower()` is
modelled by `Char.toLower` (ASCII case folding, which is what every string
occurring in the rule catalogs uses); Python whitespace (`str.split`,
`str.strip`, regex `\s`) is modelled by the six ASCII whitespace characters.
Python floats are modelled by `ℚ`, and `round(x, 2)` by round-half-to-even
at two decimal places.
-/

namespace Adgm

/-- ASCII whitespace, the model of Python's default whitespace class. -/
def isSpaceB (c : Char) : Bool :=
  c == ' ' || c == '\t' || c == '\n' || c == '\r' || c == '\x0b' || c == '\x0c'

/-- `isPrefixB p s` is true when `p` is a prefix of `s`. -/
def isPrefixB : List Char → List Char → Bool
  | [], _ => true
  | _ :: _, [] => false
  | a :: p, b :: s => a == b && isPrefixB p s

/-- Python's `needle in haystack` substring test. -/
def isSubstr (n : List Char) : List Char → Bool
  | [] => n.isEmpty
  | c :: t => isPrefixB n (c :: t) || isSubstr n t

/-- Python's `s.endswith(ext)`. -/
def isSuffixB (ext s : List Char) : Bool :=
  isPrefixB ext.reverse s.reverse

/-- Case folding of a whole string, the model of Python's `str.lower()`. -/
def lowerL (s : List Char) : List Char := s.map Char.toLower

end Adgm

namespace Adgm

/-! ### A matcher for the fixed regular expressions of `adgm_checker.py`.

Every pattern in the source is a sequence of literal characters, `\s+`
runs, and single optional characters (`s?`); `RTok` is exactly that
sub-language, matched case-insensitively (all the source patterns are
compiled with `re.IGNORECASE`). -/

inductive RTok where
  | lit (c : Char)
  | ws
  | opt (c : Char)
deriving DecidableEq

abbrev RPat := List RTok

/-- Literal part of a pattern. -/
def litP (s : String) : RPat := s.toList.map RTok.lit

/-- Backtracking matcher (fuel-driven so that it reduces inside the
kernel; every recursive call shrinks `2·|s| + |p|`, so the fuel used by
`matchPat` below always suffices): `matchPat p s` returns the remainder
of `s` after a match of `p` at the very start of `s` (greedy, with
backtracking, mirroring Python `re`). -/
def matchPatAux : Nat → RPat → List Char → Option (List Char)
  | 0, _, _ => none
  | _ + 1, [], s => some s
  | _ + 1, RTok.lit _ :: _, [] => none
  | fuel + 1, RTok.lit c :: p, d :: s =>
      if d.toLower == c.toLower then matchPatAux fuel p s else none
  | _ + 1, RTok.ws :: _, [] => none
  | fuel + 1, RTok.ws :: p, d :: s =>
      if isSpaceB d then
        match matchPatAux fuel (RTok.ws :: p) s with
        | some r => some r
        | none => matchPatAux fuel p s
      else none
  | fuel + 1, RTok.opt _ :: p, [] => matchPatAux fuel p []
  | fuel + 1, RTok.opt c :: p, d :: s =>
      if d.toLower == c.toLower then
        match matchPatAux fuel p s with
        | some r => some r
        | none => matchPatAux fuel p (d :: s)
      else matchPatAux fuel p (d :: s)

/-- Matcher entry point with always-sufficient fuel. -/
def matchPat (p : RPat) (s : List Char) : Option (List Char) :=
  matchPatAux (2 * s.length + p.length + 1) p s

/-- All non-overlapping leftmost matches, as `re.finditer`: scan positions
left to right, resume after each match (fuel-driven; `s.length + 1` fuel
always suffices). Returns the list of matched substrings. -/
def findAllAux : Nat → RPat → List Char → List (List Char)
  | 0, _, _ => []
  | fuel + 1, p, s =>
    match matchPat p s with
    | some r =>
      let m := s.take (s.length - r.length)
      if r.length = s.length then
        match s with
        | [] => [m]
        | _ :: t => m :: findAllAux fuel p t
      else m :: findAllAux fuel p r
    | none =>
      match s with
      | [] => []
      | _ :: t => findAllAux fuel p t

/-- `re.finditer` match list for one pattern. -/
def findAll (p : RPat) (s : List Char) : List (List Char) :=
  findAllAux (s.length + 1) p s

end Adgm

namespace Adgm

/-! ### `adgm_checker.py` — rule catalog -/

/-- `self.adgm_jurisdiction_patterns`. -/
def adgm_jurisdiction_patterns : List RPat :=
  [ litP "ADGM" ++ [RTok.ws] ++ litP "Court" ++ [RTok.opt 's'],
    litP "Abu" ++ [RTok.ws] ++ litP "Dhabi" ++ [RTok.ws] ++ litP "Global" ++ [RTok.ws] ++ litP "Market",
    litP "ADGM" ++ [RTok.ws] ++ litP "Companie" ++ [RTok.opt 's'] ++ [RTok.ws] ++ litP "Regulation" ++ [RTok.opt 's'],
    litP "ADGM" ++ [RTok.ws] ++ litP "Commercial" ++ [RTok.ws] ++ litP "Regulation" ++ [RTok.opt 's'] ]

/-- `self.federal_court_patterns`. -/
def federal_court_patterns : List RPat :=
  [ litP "UAE" ++ [RTok.ws] ++ litP "Federal" ++ [RTok.ws] ++ litP "Court" ++ [RTok.opt 's'],
    litP "Federal" ++ [RTok.ws] ++ litP "Court" ++ [RTok.opt 's'] ++ [RTok.ws] ++ litP "of" ++ [RTok.ws] ++ litP "UAE",
    litP "Dubai" ++ [RTok.ws] ++ litP "Court" ++ [RTok.opt 's'],
    litP "Abu" ++ [RTok.ws] ++ litP "Dhabi" ++ [RTok.ws] ++ litP "Court" ++ [RTok.opt 's'] ]

/-- `self.required_clauses` (per-document-type required clause phrases). -/
def required_clauses : List (String × List String) :=
  [ ("Articles of Association",
      ["company name", "registered office", "objects clause", "share capital",
       "directors", "shareholders", "amendment procedures"]),
    ("Memorandum of Association",
      ["company name", "registered office", "objects", "liability",
       "share capital", "subscribers"]),
    ("Board Resolution",
      ["date", "directors present", "resolution text", "voting results", "signatures"]) ]

/-- `ambiguous_patterns` of `check_legal_language` (pattern, description). -/
def ambiguous_patterns : List (RPat × String) :=
  [ (litP "may" ++ [RTok.ws] ++ litP "or" ++ [RTok.ws] ++ litP "may" ++ [RTok.ws] ++ litP "not",
     "Ambiguous language - \"may or may not\""),
    (litP "at" ++ [RTok.ws] ++ litP "our" ++ [RTok.ws] ++ litP "discretion",
     "Vague discretionary language"),
    (litP "reasonable" ++ [RTok.ws] ++ litP "effort" ++ [RTok.opt 's'],
     "Subjective standard - \"reasonable efforts\""),
    (litP "best" ++ [RTok.ws] ++ litP "endeavour" ++ [RTok.opt 's'],
     "Subjective standard - \"best endeavours\""),
    (litP "subject" ++ [RTok.ws] ++ litP "to" ++ [RTok.ws] ++ litP "availability",
     "Conditional language without clear terms") ]

/-- `ComplianceIssue` dataclass (`sect` models the `section` field,
whose original name is a Lean keyword). -/
structure ComplianceIssue where
  issue_type : String
  severity : String
  description : String
  sect : String
  clause : String
  adgm_reference : String
  suggestion : String
deriving DecidableEq

/-- The `structure` argument of `check_compliance`: a dict exposing
`title` (possibly absent/empty) and a `sections` collection. -/
structure DocStructure where
  title : Option String
  sections : List String

/-- `check_jurisdiction_compliance`. -/
def check_jurisdiction_compliance (content : String) : List ComplianceIssue :=
  let issues := federal_court_patterns.flatMap (fun p =>
    (findAll p content.toList).map (fun m =>
      { issue_type := "Jurisdiction Error"
        severity := "High"
        description := "Document references " ++ String.mk m ++ " instead of ADGM Courts"
        sect := "Jurisdiction Clause"
        clause := String.mk m
        adgm_reference := "ADGM Companies Regulations 2020, Art. 6"
        suggestion := "Update jurisdiction clause to reference ADGM Courts exclusively" }))
  let adgm_references :=
    (adgm_jurisdiction_patterns.map (fun p => (findAll p content.toList).length)).sum
  issues ++
    (if adgm_references = 0 then
      [ { issue_type := "Missing ADGM Reference"
          severity := "High"
          description := "Document does not reference ADGM jurisdiction"
          sect := "Jurisdiction"
          clause := "No ADGM reference found"
          adgm_reference := "ADGM Companies Regulations 2020, Art. 6"
          suggestion := "Add explicit reference to ADGM jurisdiction and courts" } ]
    else [])

/-- `check_required_clauses`. -/
def check_required_clauses (document_type content : String) : List ComplianceIssue :=
  match required_clauses.lookup document_type with
  | none => []
  | some required =>
    let content_lower := lowerL content.toList
    required.filterMap (fun clause =>
      if isSubstr clause.toList content_lower then none
      else some
        { issue_type := "Missing Required Clause"
          severity := "High"
          description := "Required clause \x27" ++ clause ++ "\x27 is missing"
          sect := "Document Structure"
          clause := clause
          adgm_reference := "ADGM Companies Regulations 2020"
          suggestion := "Add " ++ clause ++ " clause to comply with ADGM requirements" })

/-- `check_legal_language`. -/
def check_legal_language (content : String) : List ComplianceIssue :=
  ambiguous_patterns.flatMap (fun pd =>
    (findAll pd.1 content.toList).map (fun m =>
      { issue_type := "Ambiguous Language"
        severity := "Medium"
        description := pd.2
        sect := "Legal Language"
        clause := String.mk m
        adgm_reference := "ADGM Commercial Regulations"
        suggestion := "Replace with specific, binding language" }))

/-- `check_formatting_compliance`. -/
def check_formatting_compliance (st : DocStructure) : List ComplianceIssue :=
  (if (st.title.getD "") = "" then
    [ { issue_type := "Missing Title"
        severity := "Medium"
        description := "Document lacks a clear title"
        sect := "Document Structure"
        clause := "No title found"
        adgm_reference := "ADGM Document Standards"
        suggestion := "Add a clear, descriptive document title" } ]
  else []) ++
  (if st.sections.length < 2 then
    [ { issue_type := "Poor Structure"
        severity := "Low"
        description := "Document lacks proper sectioning"
        sect := "Document Structure"
        clause := "Insufficient sections"
        adgm_reference := "ADGM Document Standards"
        suggestion := "Organize content into clear, numbered sections" } ]
  else [])

/-! ### Rounding: the model of Python's `round(x, 2)` -/

/-- Round a rational to the nearest integer, ties to even.
(`Rat.floor` rather than `⌊·⌋` so that the definition reduces in the
kernel; the two agree, see `ratFloor_eq_intFloor`.) -/
def roundHalfEven (q : ℚ) : ℤ :=
  let f := q.floor
  let r := q - (f : ℚ)
  if r < 1/2 then f
  else if 1/2 < r then f + 1
  else if f % 2 = 0 then f else f + 1

/-- `round(x, 2)`: round to two decimal places, ties to even. -/
def round2 (q : ℚ) : ℚ := (roundHalfEven (q * 100) : ℚ) / 100

/-- The raw (unrounded) compliance score of `check_compliance`, as a
function of the severity counts and the total issue count. -/
def rawScore (high medium low total : Nat) : ℚ :=
  if total = 0 then 100
  else
    max 0 (100 - (((high * 3 + medium * 2 + low * 1 : Nat) : ℚ) / ((total * 3 : Nat) : ℚ)) * 100)

/-- The report returned by `check_compliance`. -/
structure ComplianceReport where
  compliance_score : ℚ
  total_issues : Nat
  high_severity_issues : Nat
  medium_severity_issues : Nat
  low_severity_issues : Nat
  issues : List ComplianceIssue
  is_compliant : Bool
deriving DecidableEq

/-- The `all_issues` list accumulated by `check_compliance`: the four
checks run in order. -/
def allIssues (document_type content : String) (st : DocStructure) :
    List ComplianceIssue :=
  check_jurisdiction_compliance content ++
  check_required_clauses document_type content ++
  check_legal_language content ++
  check_formatting_compliance st

/-- `check_compliance`: run the four checks, count issues by severity and
compute the weighted score. -/
def check_compliance (document_type content : String) (st : DocStructure) :
    ComplianceReport :=
  let all_issues := allIssues document_type content st
  let total_checks := all_issues.length
  let high_severity := (all_issues.filter (fun i => i.severity == "High")).length
  let medium_severity := (all_issues.filter (fun i => i.severity == "Medium")).length
  let low_severity := (all_issues.filter (fun i => i.severity == "Low")).length
  let compliance_score := rawScore high_severity medium_severity low_severity total_checks
  { compliance_score := round2 compliance_score
    total_issues := total_checks
    high_severity_issues := high_severity
    medium_severity_issues := medium_severity
    low_severity_issues := low_severity
    issues := all_issues
    is_compliant := decide (80 ≤ compliance_score) }

end Adgm

namespace Checklist

open Adgm

/-! ### `checklist_verifier.py` -/

/-- `DocumentRequirement` dataclass. -/
structure DocumentRequirement where
  document_name : String
  is_mandatory : Bool
  description : String
  adgm_reference : String
  content_keywords : List String
deriving DecidableEq

/-- `ChecklistResult` dataclass. -/
structure ChecklistResult where
  process_type : String
  documents_uploaded : Nat
  required_documents : Nat
  missing_documents : List String
  completeness_percentage : ℚ
  is_complete : Bool
deriving DecidableEq

/-- An uploaded-document descriptor: a dict whose `file_name`, `file_path`
and `document_type` entries may each be absent (`none`); the source reads
them with `doc.get(key, dflt)`. -/
structure UploadedDoc where
  file_name : Option String
  file_path : Option String
  document_type : Option String

/-- `self.process_checklists` (insertion order preserved). -/
def process_checklists : List (String × List DocumentRequirement) :=
  [ ("Company Incorporation",
      [ ⟨"Articles of Association", true,
         "Constitutional document defining company structure",
         "ADGM Companies Regulations 2020, Art. 6",
         ["articles of association", "company articles", "aoa", "articles",
          "constitutional document", "company structure"]⟩,
        ⟨"Memorandum of Association", true,
         "Document establishing company and its objects",
         "ADGM Companies Regulations 2020, Art. 6",
         ["memorandum of association", "company memorandum", "memorandum",
          "company objects", "company establishment"]⟩,
        ⟨"Board Resolution", true,
         "Resolution authorizing incorporation",
         "ADGM Companies Regulations 2020, Art. 22",
         ["board resolution", "board meeting", "directors resolution",
          "board decision", "directors decision"]⟩,
        ⟨"Shareholder Resolution", true,
         "Resolution approving incorporation",
         "ADGM Companies Regulations 2020, Art. 15",
         ["shareholder resolution", "shareholders resolution", "member resolution",
          "shareholder decision", "member decision"]⟩,
        ⟨"Incorporation Application Form", true,
         "Official application for company registration",
         "ADGM Companies Regulations 2020, Art. 6",
         ["incorporation application", "company registration", "incorporation form",
          "registration application", "company formation"]⟩,
        ⟨"UBO Declaration Form", true,
         "Ultimate Beneficial Owner declaration",
         "ADGM Companies Regulations 2020, Art. 45",
         ["ubo declaration", "ultimate beneficial owner", "beneficial owner",
          "ubo form", "ownership declaration"]⟩,
        ⟨"Register of Members and Directors", true,
         "Register of company members and directors",
         "ADGM Companies Regulations 2020, Art. 22",
         ["register of members", "register of directors", "members register",
          "directors register", "company register"]⟩,
        ⟨"Change of Registered Address Notice", false,
         "Notice of registered office address",
         "ADGM Companies Regulations 2020, Art. 8",
         ["change of address", "registered address", "office address",
          "address change", "registered office"]⟩ ]),
    ("Business Licensing",
      [ ⟨"License Application Form", true,
         "Application for business license",
         "ADGM Commercial Regulations, Art. 3",
         ["license application", "business license", "licensing application",
          "permit application", "business permit"]⟩,
        ⟨"Business Plan", true,
         "Detailed business plan and projections",
         "ADGM Commercial Regulations, Art. 3",
         ["business plan", "business strategy", "business proposal",
          "business model", "business projections"]⟩,
        ⟨"Financial Statements", true,
         "Audited financial statements",
         "ADGM Commercial Regulations, Art. 8",
         ["financial statements", "financial report", "audited accounts",
          "financial accounts", "balance sheet"]⟩,
        ⟨"Compliance Policy", true,
         "Compliance and risk management policy",
         "ADGM Commercial Regulations, Art. 12",
         ["compliance policy", "risk management", "compliance procedures",
          "risk policy", "compliance framework"]⟩,
        ⟨"Board Resolution", true,
         "Resolution approving license application",
         "ADGM Commercial Regulations, Art. 3",
         ["board resolution", "board meeting", "directors resolution",
          "board decision", "directors decision"]⟩ ]),
    ("Employment Contracts",
      [ ⟨"Employment Contract", true,
         "Standard employment agreement",
         "ADGM Employment Regulations",
         ["employment contract", "employment agreement", "work contract",
          "employment terms", "work agreement"]⟩,
        ⟨"Job Description", true,
         "Detailed job role and responsibilities",
         "ADGM Employment Regulations",
         ["job description", "role description", "position description",
          "job responsibilities", "role requirements"]⟩,
        ⟨"Company Policies", false,
         "Relevant company policies and procedures",
         "ADGM Employment Regulations",
         ["company policies", "company procedures", "workplace policies",
          "employment policies", "company rules"]⟩,
        ⟨"Board Resolution", true,
         "Resolution approving employment terms",
         "ADGM Employment Regulations",
         ["board resolution", "board meeting", "directors resolution",
          "board decision", "directors decision"]⟩ ]),
    ("Commercial Agreements",
      [ ⟨"Commercial Agreement", true,
         "Main commercial contract",
         "ADGM Commercial Regulations",
         ["commercial agreement", "commercial contract", "business agreement",
          "commercial terms", "business contract"]⟩,
        ⟨"Due Diligence Report", true,
         "Due diligence findings",
         "ADGM Commercial Regulations",
         ["due diligence", "due diligence report", "diligence findings",
          "investigation report", "background check"]⟩,
        ⟨"Board Resolution", true,
         "Resolution approving agreement",
         "ADGM Commercial Regulations",
         ["board resolution", "board meeting", "directors resolution",
          "board decision", "directors decision"]⟩,
        ⟨"Legal Opinion", false,
         "Legal opinion on agreement terms",
         "ADGM Commercial Regulations",
         ["legal opinion", "legal advice", "legal assessment",
          "legal review", "legal counsel"]⟩ ]) ]

/-- `self.common_extensions` of `_normalize_filename`. -/
def common_extensions : List String := [".docx", ".doc", ".pdf", ".txt", ".rtf", ".odt"]

/-- Python `str.strip()`. -/
def pyStrip (s : List Char) : List Char :=
  ((s.dropWhile isSpaceB).reverse.dropWhile isSpaceB).reverse

/-- The extension-removal step of `_normalize_filename`: drop the first
`common_extensions` entry that the lowercased name ends with. -/
def stripExt (s : List Char) : List Char :=
  match common_extensions.find? (fun ext => isSuffixB ext.toList (lowerL s)) with
  | some ext => s.take (s.length - ext.length)
  | none => s

/-- The separator test of `_normalize_filename` (`_`, `-`, `.`). -/
def isSepB (c : Char) : Bool := c == '_' || c == '-' || c == '.'

/-- The separator-replacement step: `_`, `-`, `.` become spaces. -/
def replaceSeps (s : List Char) : List Char :=
  s.map (fun c => if isSepB c then ' ' else c)

/-- Python `str.split()` (split on whitespace runs, no empty words);
`acc` holds the reversed current word. -/
def splitWsAux : List Char → List Char → List (List Char)
  | acc, [] => if acc.isEmpty then [] else [acc.reverse]
  | acc, c :: t =>
    if isSpaceB c then
      if acc.isEmpty then splitWsAux [] t else acc.reverse :: splitWsAux [] t
    else splitWsAux (c :: acc) t

/-- Python `str.split()`. -/
def splitWs (s : List Char) : List (List Char) := splitWsAux [] s

/-- Python `' '.join(words)`. -/
def joinWords : List (List Char) → List Char
  | [] => []
  | [w] => w
  | w :: ws => w ++ ' ' :: joinWords ws

/-- `_normalize_filename` on character lists: strip, drop a recognized
extension, replace separators, lowercase, collapse whitespace. -/
def normalizeChars (s : List Char) : List Char :=
  joinWords (splitWs (lowerL (replaceSeps (stripExt (pyStrip s)))))

/-- `_normalize_filename`. -/
def normalize_filename (filename : String) : String :=
  String.mk (normalizeChars filename.toList)

/-- `match_document_type`: content keywords, then normalized-filename
equality, then keywords against the raw filename. -/
def match_document_type (text filename : String) (required_doc : DocumentRequirement) : Bool :=
  let text_lower := lowerL text.toList
  if required_doc.content_keywords.any (fun kw => isSubstr (lowerL kw.toList) text_lower) then
    true
  else if normalize_filename filename == normalize_filename required_doc.document_name then
    true
  else if required_doc.content_keywords.any
      (fun kw => isSubstr (lowerL kw.toList) (lowerL filename.toList)) then
    true
  else false

/-- `_find_matching_document`: first required name whose normalization
equals the uploaded filename's. -/
def find_matching_document (uploaded_filename : String)
    (required_document_names : List String) : Option String :=
  required_document_names.find?
    (fun n => normalize_filename uploaded_filename == normalize_filename n)

/-- The `+= 3` anchor table of `identify_process_type` (the if/elif chain). -/
def anchorProcess (doc_type : String) : Option String :=
  if doc_type == "Articles of Association" || doc_type == "Memorandum of Association" then
    some "Company Incorporation"
  else if doc_type == "License Application Form" || doc_type == "Business Plan" then
    some "Business Licensing"
  else if doc_type == "Employment Contract" || doc_type == "Job Description" then
    some "Employment Contracts"
  else if doc_type == "Commercial Agreement" || doc_type == "Due Diligence Report" then
    some "Commercial Agreements"
  else none

/-- One iteration of the scoring loop of `identify_process_type`. -/
def scoreStep (scores : List (String × Nat)) (doc_type : String) : List (String × Nat) :=
  let scores1 :=
    match anchorProcess doc_type with
    | some p => scores.map (fun e => if e.1 == p then (e.1, e.2 + 3) else e)
    | none => scores
  if doc_type == "Board Resolution" then scores1.map (fun e => (e.1, e.2 + 1))
  else scores1

/-- `process_scores` initial dict, in insertion order. -/
def initScores : List (String × Nat) :=
  [("Company Incorporation", 0), ("Business Licensing", 0),
   ("Employment Contracts", 0), ("Commercial Agreements", 0)]

/-- Python `max(d, key=d.get)`: first key attaining the maximum, in order. -/
def argmaxAux : String → Nat → List (String × Nat) → String
  | best, _, [] => best
  | best, bestScore, e :: rest =>
    if bestScore < e.2 then argmaxAux e.1 e.2 rest else argmaxAux best bestScore rest

/-- Python `max(process_scores, key=process_scores.get)`. -/
def argmaxFirst : List (String × Nat) → String
  | [] => ""
  | e :: rest => argmaxAux e.1 e.2 rest

/-- `identify_process_type`. -/
def identify_process_type (uploaded_documents : List UploadedDoc) : String :=
  let document_types := uploaded_documents.map (fun d => d.document_type.getD "")
  argmaxFirst (document_types.foldl scoreStep initScores)

end Checklist

namespace Checklist

/-- The body of the per-uploaded-document loop of `verify_checklist`.
`extract` models the document processor (`extract_docx_text`); `found`
models the `found_documents` set as a duplicate-free list. -/
def processDoc (extract : String → String) (required_docs : List DocumentRequirement)
    (mandatory_docs : List String) (found : List String) (d : UploadedDoc) : List String :=
  let uploaded_filename := d.file_name.getD ""
  let file_path := d.file_path.getD ""
  if uploaded_filename = "" ∨ file_path = "" then found
  else
    let text_content := extract file_path
    let found1 :=
      match required_docs.find? (fun r =>
          r.is_mandatory && !(found.contains r.document_name) &&
          match_document_type text_content uploaded_filename r) with
      | some r => found ++ [r.document_name]
      | none => found
    if !(required_docs.any (fun r =>
        r.is_mandatory && match_document_type text_content uploaded_filename r)) then
      match find_matching_document uploaded_filename mandatory_docs with
      | some n => if n ≠ "" ∧ ¬ found1.contains n = true then found1 ++ [n] else found1
      | none => found1
    else found1

/-- The per-document loop body with the filename-only fallback block
removed (the variant of `verify_checklist` that claim C9 compares with). -/
def processDocNoFallback (extract : String → String)
    (required_docs : List DocumentRequirement)
    (found : List String) (d : UploadedDoc) : List String :=
  let uploaded_filename := d.file_name.getD ""
  let file_path := d.file_path.getD ""
  if uploaded_filename = "" ∨ file_path = "" then found
  else
    let text_content := extract file_path
    match required_docs.find? (fun r =>
        r.is_mandatory && !(found.contains r.document_name) &&
        match_document_type text_content uploaded_filename r) with
    | some r => found ++ [r.document_name]
    | none => found

/-- `verify_checklist` (with `extract` the document-processor collaborator). -/
def verify_checklist (extract : String → String)
    (uploaded_documents : List UploadedDoc) : ChecklistResult :=
  if uploaded_documents.isEmpty then
    { process_type := "Unknown"
      documents_uploaded := 0
      required_documents := 0
      missing_documents := []
      completeness_percentage := 0
      is_complete := false }
  else
    let process_type := identify_process_type uploaded_documents
    match process_checklists.lookup process_type with
    | none =>
      { process_type := "Unknown Process"
        documents_uploaded := uploaded_documents.length
        required_documents := 0
        missing_documents := []
        completeness_percentage := 0
        is_complete := false }
    | some required_docs =>
      let mandatory_docs := (required_docs.filter (·.is_mandatory)).map (·.document_name)
      let found_documents :=
        uploaded_documents.foldl (processDoc extract required_docs mandatory_docs) []
      let missing_docs := mandatory_docs.filter (fun n => !(found_documents.contains n))
      let total_mandatory := mandatory_docs.length
      let uploaded_mandatory := found_documents.length
      let completeness : ℚ :=
        if 0 < total_mandatory then
          ((uploaded_mandatory : ℚ) / (total_mandatory : ℚ)) * 100
        else 0
      { process_type := process_type
        documents_uploaded := uploaded_documents.length
        required_documents := total_mandatory
        missing_documents := missing_docs
        completeness_percentage := Adgm.round2 completeness
        is_complete := decide (missing_docs.length = 0) }

/-- `verify_checklist` with the filename-only fallback block removed
(claim C9's comparison variant). -/
def verify_checklist_noFallback (extract : String → String)
    (uploaded_documents : List UploadedDoc) : ChecklistResult :=
  if uploaded_documents.isEmpty then
    { process_type := "Unknown"
      documents_uploaded := 0
      required_documents := 0
      missing_documents := []
      completeness_percentage := 0
      is_complete := false }
  else
    let process_type := identify_process_type uploaded_documents
    match process_checklists.lookup process_type with
    | none =>
      { process_type := "Unknown Process"
        documents_uploaded := uploaded_documents.length
        required_documents := 0
        missing_documents := []
        completeness_percentage := 0
        is_complete := false }
    | some required_docs =>
      let mandatory_docs := (required_docs.filter (·.is_mandatory)).map (·.document_name)
      let found_documents :=
        uploaded_documents.foldl (processDocNoFallback extract required_docs) []
      let missing_docs := mandatory_docs.filter (fun n => !(found_documents.contains n))
      let total_mandatory := mandatory_docs.length
      let uploaded_mandatory := found_documents.length
      let completeness : ℚ :=
        if 0 < total_mandatory then
          ((uploaded_mandatory : ℚ) / (total_mandatory : ℚ)) * 100
        else 0
      { process_type := process_type
        documents_uploaded := uploaded_documents.length
        required_documents := total_mandatory
        missing_documents := missing_docs
        completeness_percentage := Adgm.round2 completeness
        is_complete := decide (missing_docs.length = 0) }

end Checklist

namespace Adgm

/-! ### Helper lemmas: rounding -/

theorem ratFloor_eq_intFloor (q : ℚ) : q.floor = ⌊q⌋ := by
  rw [Rat.floor_def', Rat.floor_def]

theorem rhe_eq_floor_or (q : ℚ) :
    roundHalfEven q = ⌊q⌋ ∨ roundHalfEven q = ⌊q⌋ + 1 := by
  simp only [roundHalfEven, ratFloor_eq_intFloor]
  split_ifs <;> simp

theorem floor_le_rhe (q : ℚ) : ⌊q⌋ ≤ roundHalfEven q := by
  rcases rhe_eq_floor_or q with h | h <;> omega

theorem rhe_le_floor_add_one (q : ℚ) : roundHalfEven q ≤ ⌊q⌋ + 1 := by
  rcases rhe_eq_floor_or q with h | h <;> omega

theorem rhe_intCast (n : ℤ) : roundHalfEven (n : ℚ) = n := by
  simp only [roundHalfEven, ratFloor_eq_intFloor, Int.floor_intCast, sub_self]
  norm_num

theorem rhe_mono {q r : ℚ} (h : q ≤ r) : roundHalfEven q ≤ roundHalfEven r := by
  have hfl : ⌊q⌋ ≤ ⌊r⌋ := Int.floor_le_floor h
  rcases lt_or_eq_of_le hfl with hlt | heq
  · have h1 := rhe_le_floor_add_one q
    have h2 := floor_le_rhe r
    omega
  · by_cases hq : q - (⌊q⌋ : ℚ) < 1/2
    · have hq' : roundHalfEven q = ⌊q⌋ := by
        simp only [roundHalfEven, ratFloor_eq_intFloor]
        rw [if_pos hq]
      rw [hq', heq]
      exact floor_le_rhe r
    · by_cases hr : 1/2 < r - (⌊r⌋ : ℚ)
      · have hr' : roundHalfEven r = ⌊r⌋ + 1 := by
          simp only [roundHalfEven, ratFloor_eq_intFloor]
          rw [if_neg (by linarith), if_pos hr]
        have h1 := rhe_le_floor_add_one q
        omega
      · have hceq : ((⌊q⌋ : ℤ) : ℚ) = ((⌊r⌋ : ℤ) : ℚ) := by exact_mod_cast heq
        have h1 : (1 : ℚ)/2 ≤ q - (⌊q⌋ : ℚ) := not_lt.mp hq
        have h2 : r - ((⌊r⌋ : ℤ) : ℚ) ≤ 1/2 := not_lt.mp hr
        have : q = r := by linarith
        rw [this]

theorem round2_nonneg {q : ℚ} (h : 0 ≤ q) : 0 ≤ round2 q := by
  unfold round2
  have h1 : (0 : ℤ) ≤ ⌊q * 100⌋ := Int.le_floor.mpr (by push_cast; linarith)
  have h2 := floor_le_rhe (q * 100)
  have h3 : (0 : ℚ) ≤ ((roundHalfEven (q * 100) : ℤ) : ℚ) := by exact_mod_cast le_trans h1 h2
  linarith

theorem round2_le_add {q : ℚ} : round2 q ≤ q + 1/100 := by
  unfold round2
  have h1 : roundHalfEven (q * 100) ≤ ⌊q * 100⌋ + 1 := rhe_le_floor_add_one _
  have h2 : ((⌊q * 100⌋ : ℤ) : ℚ) ≤ q * 100 := Int.floor_le _
  have h3 : ((roundHalfEven (q * 100) : ℤ) : ℚ) ≤ q * 100 + 1 := by
    have h4 : ((roundHalfEven (q * 100) : ℤ) : ℚ) ≤ ((⌊q * 100⌋ + 1 : ℤ) : ℚ) := by
      exact_mod_cast h1
    push_cast at h4
    linarith
  linarith

theorem round2_mono {q r : ℚ} (h : q ≤ r) : round2 q ≤ round2 r := by
  unfold round2
  have h1 := rhe_mono (by linarith : q * 100 ≤ r * 100)
  have h2 : ((roundHalfEven (q * 100) : ℤ) : ℚ) ≤ ((roundHalfEven (r * 100) : ℤ) : ℚ) := by
    exact_mod_cast h1
  linarith

theorem round2_intCast (n : ℤ) : round2 (n : ℚ) = n := by
  unfold round2
  have h1 : (n : ℚ) * 100 = ((n * 100 : ℤ) : ℚ) := by push_cast; ring
  rw [h1, rhe_intCast]
  push_cast
  field_simp

/-! ### Helper lemmas: the scoring function -/

theorem rawScore_nonneg (h m l t : ℕ) : 0 ≤ rawScore h m l t := by
  unfold rawScore
  split_ifs
  · norm_num
  · exact le_max_left 0 _

theorem rawScore_le_100 (h m l t : ℕ) : rawScore h m l t ≤ 100 := by
  unfold rawScore
  split_ifs with ht
  · exact le_refl 100
  · refine max_le (by norm_num) ?_
    have hx : (0 : ℚ) ≤ ((h * 3 + m * 2 + l * 1 : ℕ) : ℚ) / ((t * 3 : ℕ) : ℚ) * 100 := by
      positivity
    linarith

theorem rawScore_le_pos {h m l t : ℕ} (hsum : h + m + l = t) (ht : t ≠ 0) :
    rawScore h m l t ≤ 200/3 := by
  unfold rawScore
  rw [if_neg ht]
  refine max_le (by norm_num) ?_
  have htpos : (0 : ℚ) < ((t * 3 : ℕ) : ℚ) := by
    have : 0 < t * 3 := by omega
    exact_mod_cast this
  have key : (100 : ℚ)/3 ≤ ((h * 3 + m * 2 + l * 1 : ℕ) : ℚ) / ((t * 3 : ℕ) : ℚ) * 100 := by
    rw [div_mul_eq_mul_div, le_div_iff₀ htpos]
    push_cast
    have : (t : ℚ) = (h : ℚ) + m + l := by exact_mod_cast hsum.symm
    nlinarith [this]
  linarith

theorem rawScore_mono_high (h m l : ℕ) :
    rawScore (h + 1) m l (h + 1 + m + l) ≤ rawScore h m l (h + m + l) := by
  by_cases ht : h + m + l = 0
  · obtain ⟨rfl, rfl, rfl⟩ : h = 0 ∧ m = 0 ∧ l = 0 := by omega
    norm_num [rawScore]
  · rw [rawScore, rawScore, if_neg ht, if_neg (by omega : ¬ h + 1 + m + l = 0)]
    refine max_le_max (le_refl 0) ?_
    have ht1 : (0 : ℚ) < (((h + 1 + m + l) * 3 : ℕ) : ℚ) := by
      have : 0 < (h + 1 + m + l) * 3 := by omega
      exact_mod_cast this
    have ht2 : (0 : ℚ) < (((h + m + l) * 3 : ℕ) : ℚ) := by
      have : 0 < (h + m + l) * 3 := by omega
      exact_mod_cast this
    have hdiv :
        ((h * 3 + m * 2 + l * 1 : ℕ) : ℚ) / (((h + m + l) * 3 : ℕ) : ℚ) ≤
        (((h + 1) * 3 + m * 2 + l * 1 : ℕ) : ℚ) / (((h + 1 + m + l) * 3 : ℕ) : ℚ) := by
      rw [div_le_div_iff₀ ht2 ht1]
      push_cast
      nlinarith
    nlinarith [hdiv]

end Adgm

namespace Adgm

/-! ### Helper lemmas: issue severities -/

theorem sev_jurisdiction (content : String) :
    ∀ i ∈ check_jurisdiction_compliance content, i.severity = "High" := by
  intro i hi
  simp only [check_jurisdiction_compliance, List.mem_append, List.mem_flatMap,
    List.mem_map] at hi
  rcases hi with ⟨p, _, m, _, rfl⟩ | hi'
  · rfl
  · split at hi'
    · simp only [List.mem_singleton] at hi'
      subst hi'
      rfl
    · simp at hi'

theorem sev_required (document_type content : String) :
    ∀ i ∈ check_required_clauses document_type content, i.severity = "High" := by
  intro i hi
  simp only [check_required_clauses] at hi
  split at hi
  · simp at hi
  · simp only [List.mem_filterMap] at hi
    obtain ⟨clause, _, hcl⟩ := hi
    split at hcl
    · simp at hcl
    · simp only [Option.some_inj] at hcl
      subst hcl
      rfl

theorem sev_legal (content : String) :
    ∀ i ∈ check_legal_language content, i.severity = "Medium" := by
  intro i hi
  simp only [check_legal_language, List.mem_flatMap, List.mem_map] at hi
  obtain ⟨pd, _, m, _, rfl⟩ := hi
  rfl

theorem sev_formatting (st : DocStructure) :
    ∀ i ∈ check_formatting_compliance st,
      i.severity = "Medium" ∨ i.severity = "Low" := by
  intro i hi
  simp only [check_formatting_compliance, List.mem_append] at hi
  rcases hi with hi' | hi' <;> split at hi' <;>
    simp only [List.mem_singleton, List.not_mem_nil] at hi' <;>
    first
      | exact absurd hi' (by simp)
      | (subst hi'; simp)

theorem sev_allIssues (document_type content : String) (st : DocStructure) :
    ∀ i ∈ allIssues document_type content st,
      i.severity = "High" ∨ i.severity = "Medium" ∨ i.severity = "Low" := by
  intro i hi
  simp only [allIssues, List.mem_append] at hi
  rcases hi with ((h1 | h2) | h3) | h4
  · exact Or.inl (sev_jurisdiction content i h1)
  · exact Or.inl (sev_required document_type content i h2)
  · exact Or.inr (Or.inl (sev_legal content i h3))
  · rcases sev_formatting st i h4 with h | h
    · exact Or.inr (Or.inl h)
    · exact Or.inr (Or.inr h)

/-- Any issue list whose severities are all High/Medium/Low is partitioned
by the three severity filters. -/
theorem sev_partition (l : List ComplianceIssue)
    (hl : ∀ i ∈ l, i.severity = "High" ∨ i.severity = "Medium" ∨ i.severity = "Low") :
    (l.filter (fun i => i.severity == "High")).length +
    (l.filter (fun i => i.severity == "Medium")).length +
    (l.filter (fun i => i.severity == "Low")).length = l.length := by
  induction l with
  | nil => simp
  | cons a t ih =>
    have ha := hl a (List.mem_cons_self a t)
    have ht : ∀ i ∈ t,
        i.severity = "High" ∨ i.severity = "Medium" ∨ i.severity = "Low" :=
      fun i hi => hl i (List.mem_cons_of_mem a hi)
    have iht := ih ht
    rcases ha with h | h | h <;>
      simp [List.filter_cons, h] <;> omega

end Adgm

namespace Adgm

/-! ### Helper lemmas: the compliance report -/

theorem check_compliance_total (dt c : String) (st : DocStructure) :
    (check_compliance dt c st).total_issues = (allIssues dt c st).length := rfl

theorem check_compliance_high (dt c : String) (st : DocStructure) :
    (check_compliance dt c st).high_severity_issues =
      ((allIssues dt c st).filter (fun i => i.severity == "High")).length := rfl

theorem check_compliance_medium (dt c : String) (st : DocStructure) :
    (check_compliance dt c st).medium_severity_issues =
      ((allIssues dt c st).filter (fun i => i.severity == "Medium")).length := rfl

theorem check_compliance_low (dt c : String) (st : DocStructure) :
    (check_compliance dt c st).low_severity_issues =
      ((allIssues dt c st).filter (fun i => i.severity == "Low")).length := rfl

theorem check_compliance_score_eq (dt c : String) (st : DocStructure) :
    (check_compliance dt c st).compliance_score =
      round2 (rawScore (check_compliance dt c st).high_severity_issues
        (check_compliance dt c st).medium_severity_issues
        (check_compliance dt c st).low_severity_issues
        (check_compliance dt c st).total_issues) := rfl

theorem check_compliance_compliant_eq (dt c : String) (st : DocStructure) :
    (check_compliance dt c st).is_compliant =
      decide (80 ≤ rawScore (check_compliance dt c st).high_severity_issues
        (check_compliance dt c st).medium_severity_issues
        (check_compliance dt c st).low_severity_issues
        (check_compliance dt c st).total_issues) := rfl

/-- The severity counts of a report partition its issue total. -/
theorem check_compliance_partition (dt c : String) (st : DocStructure) :
    (check_compliance dt c st).total_issues =
      (check_compliance dt c st).high_severity_issues +
      (check_compliance dt c st).medium_severity_issues +
      (check_compliance dt c st).low_severity_issues := by
  rw [check_compliance_total, check_compliance_high, check_compliance_medium,
    check_compliance_low]
  exact (sev_partition _ (sev_allIssues dt c st)).symm

theorem round2_100 : round2 100 = 100 := by
  have h := round2_intCast 100
  push_cast at h
  exact h

theorem rawScore_eq_claim {h m l t : ℕ} (ht : t ≠ 0) :
    rawScore h m l t =
      max 0 (100 - 100 * ((3 * h + 2 * m + 1 * l : ℕ) : ℚ) / ((3 * t : ℕ) : ℚ)) := by
  unfold rawScore
  rw [if_neg ht]
  congr 1
  push_cast
  ring

theorem rawScore_zero_total (h m l : ℕ) : rawScore h m l 0 = 100 := by
  simp [rawScore]

/-- The reported (rounded) score of a report with at least one issue is at
most 200/3 + 1/100, in particular well below both 80 and 100. -/
theorem rounded_score_le_pos {h m l t : ℕ} (hsum : h + m + l = t) (ht : t ≠ 0) :
    round2 (rawScore h m l t) ≤ 200/3 + 1/100 := by
  have h1 := rawScore_le_pos hsum ht
  have h2 := round2_le_add (q := rawScore h m l t)
  linarith

end Adgm

open Adgm Checklist

/-- C1: for every document type, content and structure, `check_compliance`
computes the compliance score exactly by the contract formula — 100 when
the report's issue total is 0, otherwise
`max(0, 100 - 100·(3·high + 2·medium + 1·low)/(3·total))` rounded to two
decimals — the severity counts partition the total, the score always lies
in `[0, 100]`, and it equals 100 exactly when `total_issues = 0`. -/
theorem claim_C1_score_formula (document_type content : String) (st : DocStructure) :
    (check_compliance document_type content st).total_issues =
      (check_compliance document_type content st).high_severity_issues +
      (check_compliance document_type content st).medium_severity_issues +
      (check_compliance document_type content st).low_severity_issues ∧
    ((check_compliance document_type content st).total_issues = 0 →
      (check_compliance document_type content st).compliance_score = 100) ∧
    ((check_compliance document_type content st).total_issues ≠ 0 →
      (check_compliance document_type content st).compliance_score =
        round2 (max 0 (100 -
          100 * ((3 * (check_compliance document_type content st).high_severity_issues +
                  2 * (check_compliance document_type content st).medium_severity_issues +
                  1 * (check_compliance document_type content st).low_severity_issues : ℕ) : ℚ) /
            ((3 * (check_compliance document_type content st).total_issues : ℕ) : ℚ)))) ∧
    0 ≤ (check_compliance document_type content st).compliance_score ∧
    (check_compliance document_type content st).compliance_score ≤ 100 ∧
    ((check_compliance document_type content st).compliance_score = 100 ↔
      (check_compliance document_type content st).total_issues = 0) := by
  have hpart := check_compliance_partition document_type content st
  have hscore := check_compliance_score_eq document_type content st
  refine ⟨hpart, ?_, ?_, ?_, ?_, ?_⟩
  · intro ht
    rw [hscore, ht]
    rw [rawScore_zero_total, round2_100]
  · intro ht
    rw [hscore, rawScore_eq_claim ht]
  · rw [hscore]
    exact round2_nonneg (rawScore_nonneg _ _ _ _)
  · by_cases ht : (check_compliance document_type content st).total_issues = 0
    · rw [hscore, ht, rawScore_zero_total, round2_100]
    · rw [hscore]
      have := rounded_score_le_pos hpart.symm ht
      linarith
  · constructor
    · intro h100
      by_contra ht
      rw [hscore] at h100
      have := rounded_score_le_pos hpart.symm ht
      rw [h100] at this
      norm_num at this
    · intro ht
      rw [hscore, ht, rawScore_zero_total, round2_100]

/-- C3: `is_compliant` is true exactly when the `compliance_score` field
of the same report (the rounded score) is at least 80; with at least one
issue both sides are false, with none both are true. -/
theorem claim_C3_compliant_iff (document_type content : String) (st : DocStructure) :
    (check_compliance document_type content st).is_compliant = true ↔
      80 ≤ (check_compliance document_type content st).compliance_score := by
  have hpart := check_compliance_partition document_type content st
  rw [check_compliance_compliant_eq, check_compliance_score_eq]
  by_cases ht : (check_compliance document_type content st).total_issues = 0
  · rw [ht, rawScore_zero_total, round2_100]
    simp
  · have h1 := rawScore_le_pos hpart.symm ht
    have h2 := rounded_score_le_pos hpart.symm ht
    simp only [decide_eq_true_eq]
    constructor
    · intro h
      linarith
    · intro h
      linarith

/-- C4: the scoring function is monotone in High-severity issues — for
all counts, the (rounded and raw) score computed from `(h+1, m, l)` is at
most the score computed from `(h, m, l)`. -/
theorem claim_C4_monotone_high (h m l : ℕ) :
    round2 (rawScore (h + 1) m l (h + 1 + m + l)) ≤
      round2 (rawScore h m l (h + m + l)) ∧
    rawScore (h + 1) m l (h + 1 + m + l) ≤ rawScore h m l (h + m + l) :=
  ⟨round2_mono (rawScore_mono_high h m l), rawScore_mono_high h m l⟩

namespace Adgm

theorem round2_zero : round2 0 = 0 := by
  have h := round2_intCast 0
  push_cast at h
  exact h

theorem check_compliance_issues (dt c : String) (st : DocStructure) :
    (check_compliance dt c st).issues = allIssues dt c st := rfl

theorem rawScore_9_high : rawScore 9 0 0 9 = 0 := by
  norm_num [rawScore]

end Adgm

/-- C7: on an "Articles of Association" document whose text is exactly
"UAE Federal Courts" and whose structure has a non-empty title and at
least two sections, `check_compliance` returns exactly 9 issues, all of
High severity — 1 forbidden-jurisdiction issue, 1 missing-ADGM-reference
issue and 7 missing-required-clause issues — with compliance score 0 and
`is_compliant = false`. -/
theorem claim_C7_uae_scenario (st : DocStructure)
    (htitle : st.title.getD "" ≠ "") (hsect : 2 ≤ st.sections.length) :
    (check_compliance "Articles of Association" "UAE Federal Courts" st).total_issues = 9 ∧
    (check_compliance "Articles of Association" "UAE Federal Courts" st).high_severity_issues = 9 ∧
    (check_compliance "Articles of Association" "UAE Federal Courts" st).medium_severity_issues = 0 ∧
    (check_compliance "Articles of Association" "UAE Federal Courts" st).low_severity_issues = 0 ∧
    ((check_compliance "Articles of Association" "UAE Federal Courts" st).issues.filter
      (fun i => i.issue_type == "Jurisdiction Error")).length = 1 ∧
    ((check_compliance "Articles of Association" "UAE Federal Courts" st).issues.filter
      (fun i => i.issue_type == "Missing ADGM Reference")).length = 1 ∧
    ((check_compliance "Articles of Association" "UAE Federal Courts" st).issues.filter
      (fun i => i.issue_type == "Missing Required Clause")).length = 7 ∧
    (check_compliance "Articles of Association" "UAE Federal Courts" st).compliance_score = 0 ∧
    (check_compliance "Articles of Association" "UAE Federal Courts" st).is_compliant = false := by
  have hfmt : check_formatting_compliance st = [] := by
    unfold check_formatting_compliance
    rw [if_neg htitle, if_neg (by omega : ¬ st.sections.length < 2)]
    rfl
  have hall : allIssues "Articles of Association" "UAE Federal Courts" st =
      check_jurisdiction_compliance "UAE Federal Courts" ++
      check_required_clauses "Articles of Association" "UAE Federal Courts" ++
      check_legal_language "UAE Federal Courts" := by
    unfold allIssues
    rw [hfmt, List.append_nil]
  have hT : (check_compliance "Articles of Association" "UAE Federal Courts" st).total_issues = 9 := by
    rw [check_compliance_total, hall]
    decide
  have hH : (check_compliance "Articles of Association" "UAE Federal Courts" st).high_severity_issues = 9 := by
    rw [check_compliance_high, hall]
    decide
  have hM : (check_compliance "Articles of Association" "UAE Federal Courts" st).medium_severity_issues = 0 := by
    rw [check_compliance_medium, hall]
    decide
  have hL : (check_compliance "Articles of Association" "UAE Federal Courts" st).low_severity_issues = 0 := by
    rw [check_compliance_low, hall]
    decide
  refine ⟨hT, hH, hM, hL, ?_, ?_, ?_, ?_, ?_⟩
  · rw [check_compliance_issues, hall]
    decide
  · rw [check_compliance_issues, hall]
    decide
  · rw [check_compliance_issues, hall]
    decide
  · rw [check_compliance_score_eq, hT, hH, hM, hL, rawScore_9_high, round2_zero]
  · rw [check_compliance_compliant_eq, hT, hH, hM, hL, rawScore_9_high]
    exact decide_eq_false (by norm_num)

/-- Witness for C7: the hypotheses hold, and the conclusion follows, at
the concrete structure with title "T" and two sections. -/
theorem claim_C7_uae_scenario_witness :
    (DocStructure.mk (some "T") ["a", "b"]).title.getD "" ≠ "" ∧
    2 ≤ (DocStructure.mk (some "T") ["a", "b"]).sections.length ∧
    (check_compliance "Articles of Association" "UAE Federal Courts"
      (DocStructure.mk (some "T") ["a", "b"])).total_issues = 9 ∧
    (check_compliance "Articles of Association" "UAE Federal Courts"
      (DocStructure.mk (some "T") ["a", "b"])).compliance_score = 0 ∧
    (check_compliance "Articles of Association" "UAE Federal Courts"
      (DocStructure.mk (some "T") ["a", "b"])).is_compliant = false := by
  have h := claim_C7_uae_scenario (DocStructure.mk (some "T") ["a", "b"])
    (by decide) (by decide)
  exact ⟨by decide, by decide, h.1, h.2.2.2.2.2.2.2.1, h.2.2.2.2.2.2.2.2⟩

/-- C5: `match_document_type` returns true exactly when some content
keyword occurs (case-insensitively) in the text, or the normalized
filename equals the normalized required document name, or some keyword
occurs (case-insensitively) in the raw filename — the three checks the
source evaluates in order with short-circuit. -/
theorem claim_C5_match_characterization (text filename : String)
    (r : DocumentRequirement) :
    match_document_type text filename r = true ↔
      ((∃ kw ∈ r.content_keywords,
          isSubstr (lowerL kw.toList) (lowerL text.toList) = true) ∨
       normalize_filename filename = normalize_filename r.document_name ∨
       (∃ kw ∈ r.content_keywords,
          isSubstr (lowerL kw.toList) (lowerL filename.toList) = true)) := by
  unfold match_document_type
  simp only [← List.any_eq_true]
  rw [show (normalize_filename filename = normalize_filename r.document_name) =
      ((normalize_filename filename == normalize_filename r.document_name) = true) from
    propext beq_iff_eq.symm]
  cases h1 : (r.content_keywords.any fun kw =>
      isSubstr (lowerL kw.toList) (lowerL text.toList)) <;>
    cases h2 : (normalize_filename filename == normalize_filename r.document_name) <;>
      cases h3 : (r.content_keywords.any fun kw =>
          isSubstr (lowerL kw.toList) (lowerL filename.toList)) <;>
        simp [h1, h2, h3]

namespace Adgm

/-! ### Helper lemmas: ASCII case folding -/

theorem toNat_ofNat_valid {n : ℕ} (h : n.isValidChar) : (Char.ofNat n).toNat = n := by
  unfold Char.ofNat
  rw [dif_pos h]
  rfl

theorem toLower_eq_self {c : Char} (h : ¬(65 ≤ c.toNat ∧ c.toNat ≤ 90)) :
    c.toLower = c := by
  unfold Char.toLower
  rw [if_neg h]

theorem toLower_toNat_upper {c : Char} (h : 65 ≤ c.toNat ∧ c.toNat ≤ 90) :
    c.toLower.toNat = c.toNat + 32 := by
  unfold Char.toLower
  rw [if_pos h]
  exact toNat_ofNat_valid (Or.inl (by omega))

theorem toNat_inj {c d : Char} (h : c.toNat = d.toNat) : c = d := by
  have h2 := congrArg Char.ofNat h
  rwa [Char.ofNat_toNat, Char.ofNat_toNat] at h2

theorem toLower_idem (c : Char) : c.toLower.toLower = c.toLower := by
  by_cases h : 65 ≤ c.toNat ∧ c.toNat ≤ 90
  · have h1 := toLower_toNat_upper h
    apply toLower_eq_self
    omega
  · rw [toLower_eq_self h, toLower_eq_self h]

theorem isSpaceB_iff_toNat (c : Char) :
    isSpaceB c = true ↔
      (c.toNat = 32 ∨ c.toNat = 9 ∨ c.toNat = 10 ∨ c.toNat = 13 ∨
       c.toNat = 11 ∨ c.toNat = 12) := by
  unfold isSpaceB
  simp only [Bool.or_eq_true, beq_iff_eq]
  constructor
  · rintro (((((he | he) | he) | he) | he) | he) <;> (subst he; decide)
  · rintro (hn | hn | hn | hn | hn | hn) <;>
      (have hc : c = Char.ofNat c.toNat := (Char.ofNat_toNat c).symm
       rw [hn] at hc
       subst hc
       decide)

theorem isSepB_iff_toNat (c : Char) :
    isSepB c = true ↔ (c.toNat = 95 ∨ c.toNat = 45 ∨ c.toNat = 46) := by
  unfold isSepB
  simp only [Bool.or_eq_true, beq_iff_eq]
  constructor
  · rintro ((he | he) | he) <;> (subst he; decide)
  · rintro (hn | hn | hn) <;>
      (have hc : c = Char.ofNat c.toNat := (Char.ofNat_toNat c).symm
       rw [hn] at hc
       subst hc
       decide)

theorem isSpaceB_toLower (c : Char) : isSpaceB c.toLower = isSpaceB c := by
  by_cases h : 65 ≤ c.toNat ∧ c.toNat ≤ 90
  · have h1 := toLower_toNat_upper h
    have hA : isSpaceB c = false := by
      apply Bool.eq_false_iff.mpr
      intro hsp
      have := (isSpaceB_iff_toNat c).mp hsp
      omega
    have hB : isSpaceB c.toLower = false := by
      apply Bool.eq_false_iff.mpr
      intro hsp
      have := (isSpaceB_iff_toNat c.toLower).mp hsp
      omega
    rw [hA, hB]
  · rw [toLower_eq_self h]

theorem isSepB_toLower (c : Char) : isSepB c.toLower = isSepB c := by
  by_cases h : 65 ≤ c.toNat ∧ c.toNat ≤ 90
  · have h1 := toLower_toNat_upper h
    have hA : isSepB c = false := by
      apply Bool.eq_false_iff.mpr
      intro hsp
      have := (isSepB_iff_toNat c).mp hsp
      omega
    have hB : isSepB c.toLower = false := by
      apply Bool.eq_false_iff.mpr
      intro hsp
      have := (isSepB_iff_toNat c.toLower).mp hsp
      omega
    rw [hA, hB]
  · rw [toLower_eq_self h]

end Adgm

namespace Checklist

open Adgm

/-! ### Helper lemmas: filename normalization -/

theorem isPrefixB_mem {p s : List Char} (h : isPrefixB p s = true) :
    ∀ c ∈ p, c ∈ s := by
  induction p generalizing s with
  | nil => intro c hc; exact absurd hc (List.not_mem_nil c)
  | cons a p' ih =>
    cases s with
    | nil => exact absurd h (by simp [isPrefixB])
    | cons b s' =>
      simp only [isPrefixB, Bool.and_eq_true, beq_iff_eq] at h
      obtain ⟨rfl, hrest⟩ := h
      intro c hc
      rcases List.mem_cons.mp hc with rfl | hc'
      · exact List.mem_cons_self _ _
      · exact List.mem_cons_of_mem _ (ih hrest c hc')

theorem splitWsAux_good (s acc : List Char)
    (hacc : ∀ c ∈ acc, isSpaceB c = false) :
    ∀ w ∈ splitWsAux acc s, w ≠ [] ∧ ∀ c ∈ w, isSpaceB c = false := by
  induction s generalizing acc with
  | nil =>
    intro w hw
    simp only [splitWsAux] at hw
    by_cases h0 : acc.isEmpty = true
    · rw [if_pos h0] at hw
      exact absurd hw (List.not_mem_nil w)
    · rw [if_neg h0] at hw
      simp only [List.mem_singleton] at hw
      subst hw
      refine ⟨by simpa using h0, ?_⟩
      intro c hc
      exact hacc c (List.mem_reverse.mp hc)
  | cons d t ih =>
    intro w hw
    simp only [splitWsAux] at hw
    by_cases hd : isSpaceB d = true
    · rw [if_pos hd] at hw
      by_cases h0 : acc.isEmpty = true
      · rw [if_pos h0] at hw
        exact ih [] (by intro c hc; exact absurd hc (List.not_mem_nil c)) w hw
      · rw [if_neg h0] at hw
        rcases List.mem_cons.mp hw with rfl | hw'
        · refine ⟨by simpa using h0, ?_⟩
          intro c hc
          exact hacc c (List.mem_reverse.mp hc)
        · exact ih [] (by intro c hc; exact absurd hc (List.not_mem_nil c)) w hw'
    · rw [if_neg hd] at hw
      refine ih (d :: acc) ?_ w hw
      intro c hc
      rcases List.mem_cons.mp hc with rfl | hc'
      · simpa using hd
      · exact hacc c hc'

theorem splitWsAux_word {w : List Char} (hw : ∀ c ∈ w, isSpaceB c = false)
    (acc s : List Char) :
    splitWsAux acc (w ++ s) = splitWsAux (w.reverse ++ acc) s := by
  induction w generalizing acc with
  | nil => simp
  | cons c w' ih =>
    have hc : isSpaceB c = false := hw c (List.mem_cons_self _ _)
    have hw' : ∀ d ∈ w', isSpaceB d = false :=
      fun d hd => hw d (List.mem_cons_of_mem _ hd)
    rw [List.cons_append]
    rw [show splitWsAux acc (c :: (w' ++ s)) = splitWsAux (c :: acc) (w' ++ s) from by
      simp only [splitWsAux]
      rw [if_neg (by simp [hc])]]
    rw [ih hw' (c :: acc)]
    have hacc : (c :: w').reverse ++ acc = w'.reverse ++ (c :: acc) := by simp
    rw [hacc]

theorem splitWs_joinWords (ws : List (List Char))
    (h : ∀ w ∈ ws, w ≠ [] ∧ ∀ c ∈ w, isSpaceB c = false) :
    splitWs (joinWords ws) = ws := by
  induction ws with
  | nil => rfl
  | cons w rest ih =>
    obtain ⟨hne, hns⟩ := h w (List.mem_cons_self _ _)
    have hrest : ∀ w ∈ rest, w ≠ [] ∧ ∀ c ∈ w, isSpaceB c = false :=
      fun w hw => h w (List.mem_cons_of_mem _ hw)
    cases rest with
    | nil =>
      show splitWsAux [] (joinWords [w]) = [w]
      have : joinWords [w] = w ++ [] := by simp [joinWords]
      rw [this, splitWsAux_word hns]
      simp only [splitWsAux, List.append_nil]
      rw [if_neg (by simpa using hne)]
      simp
    | cons w2 rest2 =>
      show splitWsAux [] (joinWords (w :: w2 :: rest2)) = w :: w2 :: rest2
      have hj : joinWords (w :: w2 :: rest2) = w ++ (' ' :: joinWords (w2 :: rest2)) := rfl
      rw [hj, splitWsAux_word hns]
      simp only [splitWsAux, List.append_nil]
      rw [if_pos (by decide), if_neg (by simpa using hne)]
      rw [List.reverse_reverse]
      exact congrArg (w :: ·) (ih hrest)

theorem mem_joinWords {c : Char} {ws : List (List Char)}
    (h : c ∈ joinWords ws) : c = ' ' ∨ ∃ w ∈ ws, c ∈ w := by
  induction ws with
  | nil => exact absurd h (List.not_mem_nil c)
  | cons w rest ih =>
    cases rest with
    | nil =>
      right
      exact ⟨w, List.mem_cons_self _ _, h⟩
    | cons w2 rest2 =>
      have hj : joinWords (w :: w2 :: rest2) = w ++ (' ' :: joinWords (w2 :: rest2)) := rfl
      rw [hj] at h
      rcases List.mem_append.mp h with hw | hrest
      · exact Or.inr ⟨w, List.mem_cons_self _ _, hw⟩
      · rcases List.mem_cons.mp hrest with rfl | htail
        · exact Or.inl rfl
        · rcases ih htail with hsp | ⟨w', hw', hc⟩
          · exact Or.inl hsp
          · exact Or.inr ⟨w', List.mem_cons_of_mem _ hw', hc⟩

theorem joinWords_append_single (ws : List (List Char)) (w : List Char)
    (h : ws ≠ []) :
    joinWords (ws ++ [w]) = joinWords ws ++ ' ' :: w := by
  induction ws with
  | nil => exact absurd rfl h
  | cons a rest ih =>
    cases rest with
    | nil => rfl
    | cons b rest2 =>
      have h1 : joinWords ((a :: b :: rest2) ++ [w]) =
          a ++ (' ' :: joinWords ((b :: rest2) ++ [w])) := rfl
      have h2 : joinWords (a :: b :: rest2) = a ++ (' ' :: joinWords (b :: rest2)) := rfl
      rw [h1, h2, ih (by simp)]
      simp

theorem joinWords_reverse (ws : List (List Char)) :
    (joinWords ws).reverse = joinWords ((ws.map List.reverse).reverse) := by
  induction ws with
  | nil => rfl
  | cons a rest ih =>
    cases rest with
    | nil => rfl
    | cons b rest2 =>
      have h2 : joinWords (a :: b :: rest2) = a ++ (' ' :: joinWords (b :: rest2)) := rfl
      rw [h2]
      have h3 : ((b :: rest2).map List.reverse).reverse ≠ [] := by simp
      calc (a ++ (' ' :: joinWords (b :: rest2))).reverse
          = (joinWords (b :: rest2)).reverse ++ ' ' :: a.reverse := by
            simp
        _ = joinWords (((b :: rest2).map List.reverse).reverse) ++ ' ' :: a.reverse := by
            rw [ih]
        _ = joinWords ((((b :: rest2).map List.reverse).reverse) ++ [a.reverse]) := by
            rw [joinWords_append_single _ _ h3]
        _ = joinWords (((a :: b :: rest2).map List.reverse).reverse) := by
            simp

theorem splitWsAux_subset (s acc : List Char) :
    ∀ w ∈ splitWsAux acc s, ∀ c ∈ w, c ∈ acc ∨ c ∈ s := by
  induction s generalizing acc with
  | nil =>
    intro w hw c hc
    simp only [splitWsAux] at hw
    by_cases h0 : acc.isEmpty = true
    · rw [if_pos h0] at hw
      exact absurd hw (List.not_mem_nil w)
    · rw [if_neg h0] at hw
      simp only [List.mem_singleton] at hw
      subst hw
      exact Or.inl (List.mem_reverse.mp hc)
  | cons d t ih =>
    intro w hw c hc
    simp only [splitWsAux] at hw
    by_cases hd : isSpaceB d = true
    · rw [if_pos hd] at hw
      by_cases h0 : acc.isEmpty = true
      · rw [if_pos h0] at hw
        rcases ih [] w hw c hc with h | h
        · exact absurd h (List.not_mem_nil c)
        · exact Or.inr (List.mem_cons_of_mem _ h)
      · rw [if_neg h0] at hw
        rcases List.mem_cons.mp hw with rfl | hw'
        · exact Or.inl (List.mem_reverse.mp hc)
        · rcases ih [] w hw' c hc with h | h
          · exact absurd h (List.not_mem_nil c)
          · exact Or.inr (List.mem_cons_of_mem _ h)
    · rw [if_neg hd] at hw
      rcases ih (d :: acc) w hw c hc with h | h
      · rcases List.mem_cons.mp h with rfl | h'
        · exact Or.inr (List.mem_cons_self _ _)
        · exact Or.inl h'
      · exact Or.inr (List.mem_cons_of_mem _ h)

theorem dropWhile_joinWords (ws : List (List Char))
    (h : ∀ w ∈ ws, w ≠ [] ∧ ∀ c ∈ w, isSpaceB c = false) :
    (joinWords ws).dropWhile isSpaceB = joinWords ws := by
  cases ws with
  | nil => rfl
  | cons w rest =>
    obtain ⟨hne, hns⟩ := h w (List.mem_cons_self _ _)
    cases w with
    | nil => exact absurd rfl hne
    | cons c w' =>
      have hc : isSpaceB c = false := hns c (List.mem_cons_self _ _)
      cases rest with
      | nil =>
        show List.dropWhile isSpaceB (c :: w') = c :: w'
        rw [List.dropWhile_cons_of_neg (by simp [hc])]
      | cons w2 rest2 =>
        have hj : joinWords ((c :: w') :: w2 :: rest2) =
            c :: (w' ++ (' ' :: joinWords (w2 :: rest2))) := rfl
        rw [hj, List.dropWhile_cons_of_neg (by simp [hc])]

theorem pyStrip_joinWords (ws : List (List Char))
    (h : ∀ w ∈ ws, w ≠ [] ∧ ∀ c ∈ w, isSpaceB c = false) :
    pyStrip (joinWords ws) = joinWords ws := by
  have hrevgood : ∀ w ∈ (ws.map List.reverse).reverse,
      w ≠ [] ∧ ∀ c ∈ w, isSpaceB c = false := by
    intro w hw
    rw [List.mem_reverse, List.mem_map] at hw
    obtain ⟨v, hv, rfl⟩ := hw
    obtain ⟨hvne, hvns⟩ := h v hv
    exact ⟨by simpa using hvne, fun c hc => hvns c (List.mem_reverse.mp hc)⟩
  unfold pyStrip
  rw [dropWhile_joinWords ws h, joinWords_reverse ws,
    dropWhile_joinWords _ hrevgood, joinWords_reverse ((ws.map List.reverse).reverse)]
  simp [List.map_reverse, List.map_map, Function.comp]

theorem mem_replaceSeps {a : Char} {u : List Char} (h : a ∈ replaceSeps u) :
    isSepB a = false := by
  unfold replaceSeps at h
  rw [List.mem_map] at h
  obtain ⟨b, _, rfl⟩ := h
  by_cases hb : isSepB b = true
  · rw [if_pos hb]
    decide
  · rw [if_neg hb]
    simpa using hb

theorem replaceSeps_eq_self {y : List Char} (h : ∀ c ∈ y, isSepB c = false) :
    replaceSeps y = y := by
  unfold replaceSeps
  have : ∀ c ∈ y, (if isSepB c then ' ' else c) = id c := by
    intro c hc
    rw [if_neg (by simp [h c hc])]
    rfl
  rw [List.map_congr_left this, List.map_id]

theorem lowerL_eq_self {y : List Char} (h : ∀ c ∈ y, c.toLower = c) :
    lowerL y = y := by
  unfold lowerL
  have : ∀ c ∈ y, c.toLower = id c := h
  rw [List.map_congr_left this, List.map_id]

theorem stripExt_eq_self {y : List Char} (h : ∀ c ∈ y, isSepB c = false) :
    stripExt y = y := by
  have hnone : common_extensions.find?
      (fun ext => isSuffixB ext.toList (lowerL y)) = none := by
    rw [List.find?_eq_none]
    intro ext hext
    intro hsuf
    have hdot : ('.' : Char) ∈ ext.toList.reverse := by
      simp only [common_extensions, List.mem_cons, List.not_mem_nil, or_false] at hext
      rcases hext with rfl | rfl | rfl | rfl | rfl | rfl <;> decide
    unfold isSuffixB at hsuf
    have hmem := isPrefixB_mem hsuf ('.' : Char) hdot
    rw [List.mem_reverse] at hmem
    unfold lowerL at hmem
    rw [List.mem_map] at hmem
    obtain ⟨a, ha, hla⟩ := hmem
    have h1 : isSepB a.toLower = isSepB a := isSepB_toLower a
    rw [hla] at h1
    rw [h a ha] at h1
    exact absurd h1.symm (by decide)
  unfold stripExt
  rw [hnone]

/-- Every character of a normalized filename is a non-separator and is
fixed by case folding. -/
theorem normalizeChars_chars (x : List Char) :
    ∀ c ∈ normalizeChars x, isSepB c = false ∧ c.toLower = c := by
  intro c hc
  have hc' : c ∈ joinWords (splitWs (lowerL (replaceSeps (stripExt (pyStrip x))))) := hc
  rcases mem_joinWords hc' with rfl | ⟨w, hw, hcw⟩
  · exact ⟨by decide, by decide⟩
  · have hcz : c ∈ lowerL (replaceSeps (stripExt (pyStrip x))) := by
      rcases splitWsAux_subset (lowerL (replaceSeps (stripExt (pyStrip x)))) [] w hw c hcw
        with h | h
      · exact absurd h (List.not_mem_nil c)
      · exact h
    unfold lowerL at hcz
    rw [List.mem_map] at hcz
    obtain ⟨a, ha, rfl⟩ := hcz
    constructor
    · rw [isSepB_toLower]
      exact mem_replaceSeps ha
    · exact toLower_idem a

/-- `_normalize_filename` is idempotent at the character-list level. -/
theorem normalizeChars_idem (x : List Char) :
    normalizeChars (normalizeChars x) = normalizeChars x := by
  have hgood := splitWsAux_good (lowerL (replaceSeps (stripExt (pyStrip x)))) []
    (by intro c hc; exact absurd hc (List.not_mem_nil c))
  have hchars := normalizeChars_chars x
  have h1 : pyStrip (normalizeChars x) = normalizeChars x := pyStrip_joinWords _ hgood
  have h2 : stripExt (normalizeChars x) = normalizeChars x :=
    stripExt_eq_self (fun c hc => (hchars c hc).1)
  have h3 : replaceSeps (normalizeChars x) = normalizeChars x :=
    replaceSeps_eq_self (fun c hc => (hchars c hc).1)
  have h4 : lowerL (normalizeChars x) = normalizeChars x :=
    lowerL_eq_self (fun c hc => (hchars c hc).2)
  calc normalizeChars (normalizeChars x)
      = joinWords (splitWs (lowerL (replaceSeps (stripExt (pyStrip (normalizeChars x)))))) :=
        rfl
    _ = joinWords (splitWs (normalizeChars x)) := by rw [h1, h2, h3, h4]
    _ = normalizeChars x := congrArg joinWords (splitWs_joinWords _ hgood)

end Checklist

/-- C6: filename normalization is idempotent for every string, and the
two sample filenames "Board_Resolution.DOCX" and "board-resolution.docx"
both normalize to "board resolution". -/
theorem claim_C6_normalize_idempotent :
    (∀ x : String, normalize_filename (normalize_filename x) = normalize_filename x) ∧
    normalize_filename "Board_Resolution.DOCX" = "board resolution" ∧
    normalize_filename "board-resolution.docx" = "board resolution" := by
  refine ⟨?_, by decide, by decide⟩
  intro x
  exact congrArg String.mk (normalizeChars_idem x.toList)


namespace Checklist

/-! ### Helper lemmas: process identification -/

theorem map_fst_pres {l : List (String × Nat)} {g : String × Nat → String × Nat}
    (h : ∀ e ∈ l, (g e).1 = e.1) : (l.map g).map Prod.fst = l.map Prod.fst := by
  rw [List.map_map]
  exact List.map_congr_left (fun e he => h e he)

theorem scoreStep_keys (scores : List (String × Nat)) (dt : String) :
    (scoreStep scores dt).map Prod.fst = scores.map Prod.fst := by
  have h2 : ∀ (p : String),
      (scores.map (fun e => if e.1 == p then (e.1, e.2 + 3) else e)).map Prod.fst =
        scores.map Prod.fst :=
    fun p => map_fst_pres (fun e _ => by by_cases he : (e.1 == p) = true <;> simp [he])
  simp only [scoreStep]
  cases ha : anchorProcess dt with
  | none =>
    dsimp only
    by_cases hb : (dt == "Board Resolution") = true
    · rw [if_pos hb]
      exact @map_fst_pres scores (fun e => (e.1, e.2 + 1)) (fun e _ => rfl)
    · rw [if_neg hb]
  | some p =>
    dsimp only
    by_cases hb : (dt == "Board Resolution") = true
    · rw [if_pos hb]
      exact (@map_fst_pres
        (scores.map (fun e => if e.1 == p then (e.1, e.2 + 3) else e))
        (fun e => (e.1, e.2 + 1)) (fun e _ => rfl)).trans (h2 p)
    · rw [if_neg hb]
      exact h2 p

theorem foldl_scoreStep_keys (l : List String) (scores : List (String × Nat)) :
    ((l.foldl scoreStep scores).map Prod.fst) = scores.map Prod.fst := by
  induction l generalizing scores with
  | nil => rfl
  | cons d t ih =>
    rw [List.foldl_cons, ih, scoreStep_keys]

theorem argmaxAux_mem (l : List (String × Nat)) (best : String) (bs : Nat) :
    argmaxAux best bs l = best ∨ argmaxAux best bs l ∈ l.map Prod.fst := by
  induction l generalizing best bs with
  | nil => exact Or.inl rfl
  | cons e rest ih =>
    simp only [argmaxAux]
    by_cases hlt : bs < e.2
    · rw [if_pos hlt]
      rcases ih e.1 e.2 with h | h
      · exact Or.inr (by rw [h]; exact List.mem_cons_self _ _)
      · exact Or.inr (List.mem_cons_of_mem _ h)
    · rw [if_neg hlt]
      rcases ih best bs with h | h
      · exact Or.inl h
      · exact Or.inr (List.mem_cons_of_mem _ h)

theorem argmaxFirst_mem (l : List (String × Nat)) (h : l ≠ []) :
    argmaxFirst l ∈ l.map Prod.fst := by
  cases l with
  | nil => exact absurd rfl h
  | cons e rest =>
    simp only [argmaxFirst]
    rcases argmaxAux_mem rest e.1 e.2 with h1 | h1
    · rw [h1]
      exact List.mem_cons_self _ _
    · exact List.mem_cons_of_mem _ h1

/-- `identify_process_type` always returns one of the four catalog keys. -/
theorem identify_mem (docs : List UploadedDoc) :
    identify_process_type docs = "Company Incorporation" ∨
    identify_process_type docs = "Business Licensing" ∨
    identify_process_type docs = "Employment Contracts" ∨
    identify_process_type docs = "Commercial Agreements" := by
  unfold identify_process_type
  have hkeys := foldl_scoreStep_keys
    (docs.map (fun d => d.document_type.getD "")) initScores
  have hne : (docs.map (fun d => d.document_type.getD "")).foldl scoreStep initScores ≠ [] := by
    intro h0
    rw [h0] at hkeys
    simp [initScores] at hkeys
  have hm := argmaxFirst_mem _ hne
  rw [hkeys] at hm
  simpa [initScores] using hm

/-- The catalog lookup succeeds for whatever `identify_process_type`
returns, so the "Unknown Process" branch of `verify_checklist` is dead. -/
theorem lookup_identify_isSome (docs : List UploadedDoc) :
    ∃ rd, process_checklists.lookup (identify_process_type docs) = some rd := by
  rcases identify_mem docs with h | h | h | h <;> rw [h] <;> exact ⟨_, rfl⟩

theorem verify_ne_unknown_process (extract : String → String)
    (docs : List UploadedDoc) :
    (verify_checklist extract docs).process_type ≠ "Unknown Process" := by
  simp only [verify_checklist]
  by_cases hemp : docs.isEmpty
  · rw [if_pos hemp]
    simp
  · rw [if_neg hemp]
    obtain ⟨rd, hrd⟩ := lookup_identify_isSome docs
    rw [hrd]
    dsimp only
    rcases identify_mem docs with h | h | h | h <;> rw [h] <;> simp

end Checklist

/-- C8: for every non-empty upload list, `identify_process_type` returns
one of the four catalog keys, and `verify_checklist` never returns a
result with process type "Unknown Process" (that branch is dead code). -/
theorem claim_C8_no_unknown_process :
    (∀ docs : List UploadedDoc, docs ≠ [] →
      (identify_process_type docs = "Company Incorporation" ∨
       identify_process_type docs = "Business Licensing" ∨
       identify_process_type docs = "Employment Contracts" ∨
       identify_process_type docs = "Commercial Agreements")) ∧
    (∀ (extract : String → String) (docs : List UploadedDoc),
      (verify_checklist extract docs).process_type ≠ "Unknown Process") :=
  ⟨fun docs _ => identify_mem docs, verify_ne_unknown_process⟩

/-- Witness for C8 at a concrete one-document upload list. -/
theorem claim_C8_no_unknown_process_witness :
    ([UploadedDoc.mk none none none] ≠ [] ∧
      (identify_process_type [UploadedDoc.mk none none none] = "Company Incorporation" ∨
       identify_process_type [UploadedDoc.mk none none none] = "Business Licensing" ∨
       identify_process_type [UploadedDoc.mk none none none] = "Employment Contracts" ∨
       identify_process_type [UploadedDoc.mk none none none] = "Commercial Agreements")) ∧
    (verify_checklist (fun _ => "") [UploadedDoc.mk none none none]).process_type ≠
      "Unknown Process" :=
  ⟨⟨List.cons_ne_nil _ _,
    claim_C8_no_unknown_process.1 [UploadedDoc.mk none none none] (List.cons_ne_nil _ _)⟩,
    claim_C8_no_unknown_process.2 (fun _ => "") [UploadedDoc.mk none none none]⟩

/-- C2 counterexample: the result `verify_checklist` returns on the empty
upload list has an empty `missing_documents` but `is_complete = false`,
so "`is_complete` iff `missing_documents` empty" fails on it. -/
theorem claim_C2_counterexample :
    (verify_checklist (fun _ => "") []).missing_documents = [] ∧
    (verify_checklist (fun _ => "") []).is_complete = false :=
  ⟨rfl, rfl⟩

/-- C2 amended: for every non-empty upload list the returned
`is_complete` is true exactly when `missing_documents` is empty; the
empty-input result instead carries `missing_documents = []` together with
`is_complete = false`. -/
theorem claim_C2_is_complete_iff :
    (∀ (extract : String → String) (docs : List UploadedDoc), docs ≠ [] →
      ((verify_checklist extract docs).is_complete = true ↔
        (verify_checklist extract docs).missing_documents = [])) ∧
    (verify_checklist (fun _ => "") []).missing_documents = [] ∧
    (verify_checklist (fun _ => "") []).is_complete = false := by
  refine ⟨?_, rfl, rfl⟩
  intro extract docs hne
  simp only [verify_checklist]
  rw [if_neg (by simpa using hne)]
  obtain ⟨rd, hrd⟩ := Checklist.lookup_identify_isSome docs
  rw [hrd]
  dsimp only
  rw [decide_eq_true_eq]
  exact List.length_eq_zero

/-- Witness for the amended C2 at a concrete one-document input. -/
theorem claim_C2_is_complete_iff_witness :
    ([UploadedDoc.mk (some "a") (some "p") none] ≠ []) ∧
    ((verify_checklist (fun _ => "") [UploadedDoc.mk (some "a") (some "p") none]).is_complete = true ↔
      (verify_checklist (fun _ => "") [UploadedDoc.mk (some "a") (some "p") none]).missing_documents = []) :=
  ⟨List.cons_ne_nil _ _,
    claim_C2_is_complete_iff.1 (fun _ => "") [UploadedDoc.mk (some "a") (some "p") none]
      (List.cons_ne_nil _ _)⟩

/-- C10: `documents_uploaded` always equals the length of a non-empty
input list, and an uploaded document whose `file_name` or `file_path`
entry is missing or empty is skipped by the matching loop entirely — the
loop body returns the found-set unchanged (independently of the extractor,
the requirement list and the current state). -/
theorem claim_C10_invalid_doc_skipped :
    (∀ (extract : String → String) (docs : List UploadedDoc), docs ≠ [] →
      (verify_checklist extract docs).documents_uploaded = docs.length) ∧
    (∀ (extract : String → String) (required_docs : List DocumentRequirement)
        (mandatory_docs found : List String) (d : UploadedDoc),
      (d.file_name.getD "" = "" ∨ d.file_path.getD "" = "") →
      processDoc extract required_docs mandatory_docs found d = found) := by
  constructor
  · intro extract docs hne
    simp only [verify_checklist]
    rw [if_neg (by simpa using hne)]
    cases process_checklists.lookup (identify_process_type docs) <;> rfl
  · intro extract rd mands found d hinv
    simp only [processDoc]
    rw [if_pos hinv]

/-- Witness for C10 at concrete inputs: a valid one-document list, and an
invalid document with a missing file name. -/
theorem claim_C10_invalid_doc_skipped_witness :
    (([UploadedDoc.mk (some "f") (some "p") none] : List UploadedDoc) ≠ [] ∧
      (verify_checklist (fun _ => "") [UploadedDoc.mk (some "f") (some "p") none]).documents_uploaded =
        [UploadedDoc.mk (some "f") (some "p") none].length) ∧
    (((UploadedDoc.mk none (some "p") none).file_name.getD "" = "" ∨
        (UploadedDoc.mk none (some "p") none).file_path.getD "" = "") ∧
      processDoc (fun _ => "") [] [] ["x"] (UploadedDoc.mk none (some "p") none) = ["x"]) :=
  ⟨⟨List.cons_ne_nil _ _,
    claim_C10_invalid_doc_skipped.1 (fun _ => "")
      [UploadedDoc.mk (some "f") (some "p") none] (List.cons_ne_nil _ _)⟩,
   ⟨Or.inl rfl,
    claim_C10_invalid_doc_skipped.2 (fun _ => "") [] [] ["x"]
      (UploadedDoc.mk none (some "p") none) (Or.inl rfl)⟩⟩

namespace Checklist

/-! ### Helper lemmas: the filename-only fallback is dead code -/

/-- Whenever `_find_matching_document` would return a mandatory document
name, `match_document_type` already accepts the corresponding requirement
(via its normalized-filename branch), so the fallback guard is false. -/
theorem processDoc_eq_noFallback (extract : String → String)
    (required_docs : List DocumentRequirement) (found : List String)
    (d : UploadedDoc) :
    processDoc extract required_docs
      ((required_docs.filter (·.is_mandatory)).map (·.document_name)) found d =
    processDocNoFallback extract required_docs found d := by
  simp only [processDoc, processDocNoFallback]
  by_cases hv : (d.file_name.getD "" = "" ∨ d.file_path.getD "" = "")
  · rw [if_pos hv, if_pos hv]
  · rw [if_neg hv, if_neg hv]
    by_cases hany : (required_docs.any fun r =>
        r.is_mandatory && match_document_type (extract (d.file_path.getD ""))
          (d.file_name.getD "") r) = true
    · rw [if_neg (by simp [hany])]
    · have hanyf : (required_docs.any fun r =>
          r.is_mandatory && match_document_type (extract (d.file_path.getD ""))
            (d.file_name.getD "") r) = false := by
        simpa using hany
      have hfind : find_matching_document (d.file_name.getD "")
          ((required_docs.filter (·.is_mandatory)).map (·.document_name)) = none := by
        unfold find_matching_document
        rw [List.find?_eq_none]
        intro n hn hbeq
        rw [List.mem_map] at hn
        obtain ⟨r, hr, rfl⟩ := hn
        rw [List.mem_filter] at hr
        obtain ⟨hrmem, hrmand⟩ := hr
        have hmatch : match_document_type (extract (d.file_path.getD ""))
            (d.file_name.getD "") r = true := by
          unfold match_document_type
          by_cases hk : (r.content_keywords.any fun kw =>
              isSubstr (lowerL kw.toList)
                (lowerL (extract (d.file_path.getD "")).toList)) = true
          · rw [if_pos hk]
          · rw [if_neg hk, if_pos hbeq]
        have hcontra : (required_docs.any fun r =>
            r.is_mandatory && match_document_type (extract (d.file_path.getD ""))
              (d.file_name.getD "") r) = true :=
          List.any_eq_true.mpr ⟨r, hrmem, by rw [hrmand, hmatch]; rfl⟩
        rw [hanyf] at hcontra
        exact Bool.false_ne_true hcontra
      rw [if_pos (by simp [hanyf]), hfind]

theorem foldl_processDoc_eq (extract : String → String)
    (required_docs : List DocumentRequirement) (docs : List UploadedDoc)
    (found : List String) :
    docs.foldl (processDoc extract required_docs
      ((required_docs.filter (·.is_mandatory)).map (·.document_name))) found =
    docs.foldl (processDocNoFallback extract required_docs) found := by
  induction docs generalizing found with
  | nil => rfl
  | cons d t ih =>
    rw [List.foldl_cons, List.foldl_cons, processDoc_eq_noFallback, ih]

end Checklist

/-- C9: the filename-only fallback block of `verify_checklist` never
marks a requirement satisfied — whenever `_find_matching_document` finds
a mandatory name, `match_document_type` already accepted that requirement,
so the guard is false — hence `verify_checklist` coincides with the
variant of the function that has the fallback block removed, on every
input. -/
theorem claim_C9_fallback_redundant (extract : String → String)
    (docs : List UploadedDoc) :
    verify_checklist extract docs = verify_checklist_noFallback extract docs := by
  simp only [verify_checklist, verify_checklist_noFallback]
  by_cases hemp : docs.isEmpty
  · rw [if_pos hemp, if_pos hemp]
  · rw [if_neg hemp, if_neg hemp]
    cases process_checklists.lookup (identify_process_type docs) with
    | none => rfl
    | some rd =>
      dsimp only
      rw [Checklist.foldl_processDoc_eq]
